import Mathlib

/-!
Shallow embedding of the Voronoi engine in `src/voronoi_claude_web.ts`
(a TypeScript port of Raymond Hill's Fortune-algorithm Voronoi library),
together with theorems settling the frozen claims about it.

Modelling conventions:
* JavaScript numbers are modelled as `ℚ` (inputs are finite, non-NaN by the
  spec's own scope); `Math.sqrt` and `Math.atan2` are not rational, so the
  functions that mention them take an explicit function parameter (`sq`,
  `at2`) — theorems that depend on actual square-root behaviour take a
  hypothesis pinning the parameter down at the point of use.
* A thrown JavaScript exception is modelled as `Except.error`; `Except.ok`
  is a normal return.  Property access on `null`/`undefined` throws a
  `TypeError` in JavaScript, and is modelled by `JsError.typeError`.
* Mutation is modelled by explicit state passing.  The source's
  `createVertex`/`createEdge`/`createCell` pop from "junkyard" pools and
  overwrite every field of the recycled object before use, so recycled
  values never influence results; where a claim depends on this the pools
  are threaded explicitly (see `Pools`, `createCell`, `compute`).

A load-bearing fact about this particular port, used repeatedly below: the
red-black-tree routines `rbInsertSuccessor`, `rbRemoveNode`, `getFirst`,
`getLast` are declared as private methods of the `Voronoi` class, but every
call site invokes them as methods of the `RBTree` instances
(`this.beachline.rbInsertSuccessor(...)`, lines 811, 824, 958, 976, 1141 of
the source).  `RBTree` instances only carry a `root` field, so each of those
calls evaluates `undefined(...)` and throws a `TypeError`.  Consequently:
* `addBeachsection` throws at `this.beachline.rbInsertSuccessor(lArc, newArc)`
  (line 958) on every call, so the beachline root remains `null` forever and
  no edge, vertex or circle event is ever produced by the sweep;
* `compute` therefore throws a `TypeError` for every non-empty site list,
  and only the empty-input path (which never touches the trees) completes.
-/

namespace VorWeb

/-- Epsilon used by all geometric comparisons in the source, `1e-9`. -/
def eps : ℚ := 1 / 1000000000

/-- An input point (a caller-supplied site, or a polygon point handed to
`filterSimilarPoints`): plain record `{x, y}`. -/
structure Pt where
  x : ℚ
  y : ℚ
deriving DecidableEq, Repr

/-- A site as it appears inside the diagram after the sweep assigned it a
`voronoiId` (the source mutates the input object in place; the id is unique
per computation, so value identity coincides with object identity). -/
structure VSite where
  x : ℚ
  y : ℚ
  voronoiId : ℕ
deriving DecidableEq, Repr

/-- A diagram vertex `{x, y}` (source class `Vertex`). -/
structure Vertex where
  x : ℚ
  y : ℚ
deriving DecidableEq, Repr

/-- The clipping rectangle `{xl, xr, yt, yb}`. -/
structure BBox where
  xl : ℚ
  xr : ℚ
  yt : ℚ
  yb : ℚ
deriving DecidableEq, Repr

/-- An edge (source class `Edge`): a bisector between `lSite` and `rSite`
(`rSite = none` for border edges synthesized by `closeCells`), with
endpoints `va`, `vb`, either of which may still be unset (`null`). -/
structure Edge where
  lSite : VSite
  rSite : Option VSite
  va : Option Vertex
  vb : Option Vertex
deriving DecidableEq, Repr

/-- A halfedge (source class `Halfedge`): a per-cell view of an edge.  The
`angle` field is computed once at construction from `Math.atan2` and only
ever used for sorting. -/
structure Halfedge where
  site : VSite
  edge : Edge
  angle : ℚ
deriving DecidableEq, Repr

/-- A cell (source class `Cell`). -/
structure Cell where
  site : VSite
  halfedges : List Halfedge
  closeMe : Bool
deriving DecidableEq, Repr

/-- The returned diagram `{cells, edges, vertices}`.  The source also
stores a wall-clock `execTime`, which is outside the value model. -/
structure Diagram where
  cells : List Cell
  edges : List Edge
  vertices : List Vertex
deriving DecidableEq, Repr

/-- A beachline arc (source class `Beachsection`); ephemeral sweep state. -/
structure Beachsection where
  site : VSite
deriving DecidableEq, Repr

/-- A circle event (source class `CircleEvent`); `x`, `y` are the event's
sweep position (`y` is the bottom of the circumcircle), `ycenter` the
circumcircle's center ordinate, `site` the site of the collapsing arc. -/
structure CircleEvent where
  site : VSite
  x : ℚ
  y : ℚ
  ycenter : ℚ
deriving DecidableEq, Repr

/-- Modelled JavaScript exceptions. -/
inductive JsError where
  /-- A `TypeError` from calling/dereferencing `undefined` or `null`. -/
  | typeError
  /-- The explicit `throw` in `closeCells` (`this makes no sense!`). -/
  | closeCellsNoSense
  /-- The explicit `throw` in `recycle` (`Need a Diagram object.`). -/
  | needsDiagram
deriving DecidableEq, Repr

/-- The recycling pools (`junkyards`) of a `Voronoi` instance, together
with the diagram pending recycling (`toRecycle`). -/
structure Pools where
  beachsectionJunkyard : List Beachsection
  circleEventJunkyard : List CircleEvent
  vertexJunkyard : List Vertex
  edgeJunkyard : List Edge
  cellJunkyard : List Cell
  toRecycle : Option Diagram
deriving DecidableEq, Repr

/-- A `Voronoi` instance with all pools empty and nothing to recycle. -/
def emptyPools : Pools := ⟨[], [], [], [], [], none⟩

/-- Source `equalWithEpsilon`. -/
def equalWithEpsilon (a b : ℚ) : Prop := |a - b| < eps

/-- Source `greaterThanWithEpsilon`. -/
def greaterThanWithEpsilon (a b : ℚ) : Prop := a - b > eps

/-- Source `lessThanWithEpsilon`. -/
def lessThanWithEpsilon (a b : ℚ) : Prop := b - a > eps

instance (a b : ℚ) : Decidable (equalWithEpsilon a b) := by
  unfold equalWithEpsilon; infer_instance

instance (a b : ℚ) : Decidable (greaterThanWithEpsilon a b) := by
  unfold greaterThanWithEpsilon; infer_instance

instance (a b : ℚ) : Decidable (lessThanWithEpsilon a b) := by
  unfold lessThanWithEpsilon; infer_instance

/-! ## connectEdge (source lines 1150–1258)

`connectEdge` returns `true` immediately when the edge's second endpoint is
already set; otherwise it marks both adjacent cells `closeMe = true` and
then tries to extend the open end of the bisector to the bounding box,
creating one or two fresh vertices, or returns `false` when the edge lies
outside the box.  The `closeMe` mutations are abstracted into a boolean
effect flag (`ConnOut.closeMe`), applied to the cell array by the caller
`clipEdges`; `created` lists the vertices pushed by `createVertex`, in
creation order (the source pushes them onto `this.vertices`). -/

/-- Result of `connectEdge`: return value, the (possibly updated) edge, the
vertices created, and whether the two adjacent cells were flagged
`closeMe`. -/
structure ConnOut where
  ok : Bool
  edge : Edge
  created : List Vertex
  closeMe : Bool
deriving DecidableEq, Repr

/-- Shared tail of the six direction cases of `connectEdge`: given the
candidate box intersections `vaNew`/`vbNew`, replace `va` when it is unset
or fails `replaceVa` (source: `!va || va.y < yt` and its variants), reject
when `reject` holds (source: `else if (va.y >= yb) return false` and its
variants), and always set `vb` to the fresh `vbNew` otherwise. -/
def connectPick (edge : Edge) (vaNew vbNew : Vertex)
    (replaceVa : Vertex → Bool) (reject : Vertex → Bool) :
    Bool × Edge × List Vertex :=
  match edge.va with
  | none =>
      (true, { edge with va := some vaNew, vb := some vbNew }, [vaNew, vbNew])
  | some a =>
      if replaceVa a then
        (true, { edge with va := some vaNew, vb := some vbNew }, [vaNew, vbNew])
      else if reject a then
        (false, edge, [])
      else
        (true, { edge with vb := some vbNew }, [vbNew])

/-- Body of `connectEdge` after the early `vb` return and the `closeMe`
mutations (source lines 1177–1257). -/
def connectEdgeOpen (edge : Edge) (lSite rSite : VSite) (bbox : BBox) :
    Bool × Edge × List Vertex :=
  let xl := bbox.xl
  let xr := bbox.xr
  let yt := bbox.yt
  let yb := bbox.yb
  let lx := lSite.x
  let ly := lSite.y
  let rx := rSite.x
  let ry := rSite.y
  let fx := (lx + rx) / 2
  let fy := (ly + ry) / 2
  if ry = ly then
    -- special case: vertical line (fm undefined)
    if fx < xl ∨ xr ≤ fx then (false, edge, [])
    else if rx < lx then
      -- downward
      connectPick edge ⟨fx, yt⟩ ⟨fx, yb⟩
        (fun a => decide (a.y < yt)) (fun a => decide (yb ≤ a.y))
    else
      -- upward
      connectPick edge ⟨fx, yb⟩ ⟨fx, yt⟩
        (fun a => decide (yb < a.y)) (fun a => decide (a.y < yt))
  else
    let fm := (lx - rx) / (ry - ly)
    let fb := fy - fm * fx
    if fm < -1 ∨ 1 < fm then
      -- closer to vertical than horizontal
      if rx < lx then
        -- downward
        connectPick edge ⟨(yt - fb) / fm, yt⟩ ⟨(yb - fb) / fm, yb⟩
          (fun a => decide (a.y < yt)) (fun a => decide (yb ≤ a.y))
      else
        -- upward
        connectPick edge ⟨(yb - fb) / fm, yb⟩ ⟨(yt - fb) / fm, yt⟩
          (fun a => decide (yb < a.y)) (fun a => decide (a.y < yt))
    else
      -- closer to horizontal than vertical
      if ly < ry then
        -- rightward
        connectPick edge ⟨xl, fm * xl + fb⟩ ⟨xr, fm * xr + fb⟩
          (fun a => decide (a.x < xl)) (fun a => decide (xr ≤ a.x))
      else
        -- leftward
        connectPick edge ⟨xr, fm * xr + fb⟩ ⟨xl, fm * xl + fb⟩
          (fun a => decide (xr < a.x)) (fun a => decide (a.x < xl))

/-- Source `connectEdge`.  When `vb` is already set it returns `true`
having touched nothing.  Otherwise it reads `rSite.x` (throwing a
`TypeError` on a border edge, whose `rSite` is `null`), flags both adjacent
cells (`closeMe := true`, before any of the `return false` paths), and runs
the direction analysis. -/
def connectEdge (edge : Edge) (bbox : BBox) : Except JsError ConnOut :=
  match edge.vb with
  | some _ => .ok ⟨true, edge, [], false⟩
  | none =>
      match edge.rSite with
      | none => .error .typeError
      | some rSite =>
          let r := connectEdgeOpen edge edge.lSite rSite bbox
          .ok ⟨r.1, r.2.1, r.2.2, true⟩

/-! ## clipEdge (source lines 1263–1347)

Liang–Barsky clipping of the segment `va → vb` against the rectangle.  Each
of the four half-plane blocks either rejects the edge or narrows the
parameter interval `[t0, t1]`.  The source dereferences `edge.va.x` and
`edge.vb.x` unconditionally, so a missing endpoint is a `TypeError`. -/

/-- Parameter-interval step for the `left` block (and, with `d := dy`,
`q := ay - yt`, the `top` block): reject or shrink `[t0, t1]`. -/
def clipLo (d q t0 t1 : ℚ) : Option (ℚ × ℚ) :=
  if d = 0 ∧ q < 0 then none
  else
    let r := -q / d
    if d < 0 then
      if r < t0 then none
      else if r < t1 then some (t0, r)
      else some (t0, t1)
    else if 0 < d then
      if t1 < r then none
      else if t0 < r then some (r, t1)
      else some (t0, t1)
    else some (t0, t1)

/-- Parameter-interval step for the `right` block (and, with `d := dy`,
`q := yb - ay`, the `bottom` block). -/
def clipHi (d q t0 t1 : ℚ) : Option (ℚ × ℚ) :=
  if d = 0 ∧ q < 0 then none
  else
    let r := q / d
    if d < 0 then
      if t1 < r then none
      else if t0 < r then some (r, t1)
      else some (t0, t1)
    else if 0 < d then
      if r < t0 then none
      else if r < t1 then some (t0, r)
      else some (t0, t1)
    else some (t0, t1)

/-- The accumulated Liang–Barsky parameters of `clipEdge` for the segment
`a → b`: `none` when some block rejects the edge, otherwise the final
`(t0, t1)`. -/
def clipParams (bbox : BBox) (a b : Vertex) : Option (ℚ × ℚ) := do
  let dx := b.x - a.x
  let dy := b.y - a.y
  let p ← clipLo dx (a.x - bbox.xl) 0 1
  let p ← clipHi dx (bbox.xr - a.x) p.1 p.2
  let p ← clipLo dy (a.y - bbox.yt) p.1 p.2
  clipHi dy (bbox.yb - a.y) p.1 p.2

/-- The vertex at parameter `t` along `a → b` (source
`createVertex(ax + t*dx, ay + t*dy)`). -/
def clipPoint (a b : Vertex) (t : ℚ) : Vertex :=
  ⟨a.x + t * (b.x - a.x), a.y + t * (b.y - a.y)⟩

/-- Result of `clipEdge`, in the same shape as `ConnOut`. -/
structure ClipOut where
  ok : Bool
  edge : Edge
  created : List Vertex
  closeMe : Bool
deriving DecidableEq, Repr

/-- Source `clipEdge`.  On success, when `t0 > 0` (resp. `t1 < 1`) the `va`
(resp. `vb`) endpoint is replaced by a freshly created vertex — the source
comments stress that the existing vertex must not be modified since it is
likely shared with another edge.  When anything was clipped both adjacent
cells are flagged `closeMe` (abstracted into the `closeMe` field; the
source reads `edge.lSite.voronoiId`/`edge.rSite.voronoiId` there, which the
caller-side flag application re-checks). -/
def clipEdge (edge : Edge) (bbox : BBox) : Except JsError ClipOut :=
  match edge.va, edge.vb with
  | some a, some b =>
      match clipParams bbox a b with
      | none => .ok ⟨false, edge, [], false⟩
      | some (t0, t1) =>
          let e1 := if 0 < t0 then { edge with va := some (clipPoint a b t0) } else edge
          let e2 := if t1 < 1 then { e1 with vb := some (clipPoint a b t1) } else e1
          let created :=
            (if 0 < t0 then [clipPoint a b t0] else []) ++
            (if t1 < 1 then [clipPoint a b t1] else [])
          .ok ⟨true, e2, created, decide (0 < t0 ∨ t1 < 1)⟩
  | _, _ => .error .typeError

/-! ## clipEdges (source lines 1352–1372)

Iterates backward over `this.edges`; an edge is removed (its endpoints
nulled and the array entry spliced out) when it fails to connect, fails to
clip, or clipped to a point-like segment; otherwise it stays, updated in
place.  Iterating backward and splicing visits each original edge exactly
once and preserves the relative order of survivors, which the backward
structural recursion below mirrors (the recursive call handles the suffix
— the edges the source visits first). -/

/-- Set `cells[i].closeMe = true`; an out-of-range index is `undefined` in
JavaScript and the field store throws a `TypeError`. -/
def flagCloseMe (cells : List Cell) (i : ℕ) : Except JsError (List Cell) :=
  match cells[i]? with
  | some c => .ok (cells.set i { c with closeMe := true })
  | none => .error .typeError

/-- Apply a `closeMe` effect flag to both cells adjacent to `edge`
(source: `this.cells[edge.lSite.voronoiId].closeMe = true;` and the same
for `rSite`; a `null` `rSite` would throw). -/
def flagAdjacent (cells : List Cell) (edge : Edge) : Except JsError (List Cell) := do
  let cells ← flagCloseMe cells edge.lSite.voronoiId
  match edge.rSite with
  | some r => flagCloseMe cells r.voronoiId
  | none => .error .typeError

/-- Final test of the `clipEdges` loop body on an edge that connected and
clipped: drop it when it is point-like, i.e. both endpoint deltas are
below epsilon (`|va.x - vb.x| < ε && |va.y - vb.y| < ε`, source line
1367); the endpoint dereferences throw when an endpoint is unset. -/
def clipDegenerate (cells : List Cell) (vs : List Vertex) (cl : ClipOut) :
    Except JsError (Option Edge × List Cell × List Vertex) :=
  if cl.ok then
    match cl.edge.va, cl.edge.vb with
    | some a, some b =>
        if |a.x - b.x| < eps ∧ |a.y - b.y| < eps then
          .ok (none, cells, vs)
        else
          .ok (some cl.edge, cells, vs)
    | _, _ => .error .typeError
  else
    .ok (none, cells, vs)

/-- Clipping stage of the `clipEdges` loop body, after `connectEdge`
returned `co`: when it connected, run `clipEdge`, record its created
vertices, apply its `closeMe` effect, and test degeneracy; when it did
not, the edge is dropped. -/
def clipFinish (bbox : BBox) (cells : List Cell) (vs : List Vertex)
    (co : ConnOut) : Except JsError (Option Edge × List Cell × List Vertex) :=
  if co.ok then do
    let cl ← clipEdge co.edge bbox
    let cells ← if cl.closeMe then flagAdjacent cells co.edge else pure cells
    clipDegenerate cells (vs ++ cl.created) cl
  else
    .ok (none, cells, vs)

/-- Processing of a single edge inside the `clipEdges` loop: run
`connectEdge`, record its created vertices, apply its `closeMe` effect,
then clip and test (`clipFinish`).  Returns `none` in the first component
when the edge is dropped from the collection. -/
def clipOneEdge (bbox : BBox) (cells : List Cell) (vs : List Vertex) (edge : Edge) :
    Except JsError (Option Edge × List Cell × List Vertex) := do
  let co ← connectEdge edge bbox
  let cells ← if co.closeMe then flagAdjacent cells edge else pure cells
  clipFinish bbox cells (vs ++ co.created) co

/-- The `clipEdges` loop over the edge collection (edges later in the
array are processed first, matching the source's backward iteration). -/
def clipEdgesGo (bbox : BBox) (cells : List Cell) (vs : List Vertex) :
    List Edge → Except JsError (List Edge × List Cell × List Vertex)
  | [] => .ok ([], cells, vs)
  | e :: rest => do
      let (rest2, cells2, vs2) ← clipEdgesGo bbox cells vs rest
      let (kept, cells3, vs3) ← clipOneEdge bbox cells2 vs2 e
      match kept with
      | some e2 => .ok (e2 :: rest2, cells3, vs3)
      | none => .ok (rest2, cells3, vs3)

/-- The pure survival decision of `clipDegenerate`. -/
def keptOfClip (cl : ClipOut) : Option Edge :=
  if cl.ok then
    match cl.edge.va, cl.edge.vb with
    | some a, some b =>
        if |a.x - b.x| < eps ∧ |a.y - b.y| < eps then none
        else some cl.edge
    | _, _ => none
  else none

/-- The pure per-edge survival decision of `clipEdges` (independent of the
cell and vertex state threaded through the loop): the clipped edge when it
survives, `none` when it is dropped or when its processing throws. -/
def keptResult (bbox : BBox) (e : Edge) : Option Edge :=
  match connectEdge e bbox with
  | .error _ => none
  | .ok co =>
      if co.ok then
        match clipEdge co.edge bbox with
        | .error _ => none
        | .ok cl => keptOfClip cl
      else none

/-! ## attachCircleEvent (source lines 1068–1145)

Given an arc with its beachline neighbours, decide whether the triple
converges and if so create a `CircleEvent`, store it in `arc.circleEvent`,
and insert it into the circle-event tree.  The early exits are: a missing
neighbour, identical neighbour sites (`lSite === rSite`; the sites of
beachline arcs are processed sites carrying unique `voronoiId`s, so value
equality models object identity), and a non-collapsing orientation
(`d >= -2e-12`).  When an event is created, the final tree insertion
`this.circleEvents.rbInsertSuccessor(predecessor, circleEvent)` (line 1141)
calls a method that does not exist on the `RBTree` instance and throws a
`TypeError` — but by then the event has been created and attached to the
arc.  The outcome type records exactly this. -/

/-- Outcome of `attachCircleEvent`. -/
inductive AttachOutcome where
  /-- One of the early `return`s was taken: no event was created, the arc
  is untouched, the function returned normally. -/
  | skipped
  /-- The event `ev` was created and assigned to `arc.circleEvent`; the
  subsequent circle-event-tree insertion then threw a `TypeError`. -/
  | created (ev : CircleEvent)
deriving DecidableEq, Repr

/-- Source `attachCircleEvent`, parameterized by the square-root function
`sq` standing in for `Math.sqrt`. -/
def attachCircleEvent (sq : ℚ → ℚ) (lArc rArc : Option Beachsection)
    (arc : Beachsection) : AttachOutcome :=
  match lArc, rArc with
  | some lA, some rA =>
      let lSite := lA.site
      let cSite := arc.site
      let rSite := rA.site
      if lSite = rSite then .skipped
      else
        let bx := cSite.x
        let bw := cSite.y
        let ax := lSite.x - bx
        let ay := lSite.y - bw
        let cx := rSite.x - bx
        let cy := rSite.y - bw
        let d := 2 * (ax * cy - ay * cx)
        if -(2 / 1000000000000) ≤ d then .skipped
        else
          let ha := ax * ax + ay * ay
          let hc := cx * cx + cy * cy
          let x := (cy * ha - ay * hc) / d
          let y := (ax * hc - cx * ha) / d
          let ycenter := y + bw
          .created ⟨cSite, x + bx, ycenter + sq (x * x + y * y), ycenter⟩
  | _, _ => .skipped

/-- The orientation quantity `d = 2*(ax*cy - ay*cx)` of
`attachCircleEvent`, computed from the three sites. -/
def orientD (lSite cSite rSite : VSite) : ℚ :=
  2 * ((lSite.x - cSite.x) * (rSite.y - cSite.y) -
       (lSite.y - cSite.y) * (rSite.x - cSite.x))

/-! ## Halfedges and closeCells (source lines 489–508, 605–646, 1377–1506)

`closeCells` is only ever reached by `compute` with an empty cell list (the
sweep throws before creating any cell that survives, see the header note),
but it is translated in full.  One caveat: in the source, halfedges hold
references to edge objects that `clipEdges` mutates in place; here
`Halfedge.edge` is a value.  The difference is unobservable in every state
this development evaluates `closeCells` on (the empty cell list). -/

/-- Source `Halfedge` constructor: the `angle` is
`atan2(rSite.y - lSite.y, rSite.x - lSite.x)` when there is a right site,
otherwise it is computed from the edge's endpoints (dereferencing them — a
`TypeError` when one is unset).  `at2` stands in for `Math.atan2 (y, x)`. -/
def createHalfedge (at2 : ℚ → ℚ → ℚ) (edge : Edge) (lSite : VSite)
    (rSite : Option VSite) : Except JsError Halfedge :=
  match rSite with
  | some r => .ok ⟨lSite, edge, at2 (r.y - lSite.y) (r.x - lSite.x)⟩
  | none =>
      match edge.va, edge.vb with
      | some a, some b =>
          if edge.lSite = lSite then
            .ok ⟨lSite, edge, at2 (b.x - a.x) (a.y - b.y)⟩
          else
            .ok ⟨lSite, edge, at2 (a.x - b.x) (b.y - a.y)⟩
      | _, _ => .error .typeError

/-- Source `getStartpoint`. -/
def getStartpoint (he : Halfedge) : Option Vertex :=
  if he.edge.lSite = he.site then he.edge.va else he.edge.vb

/-- Source `getEndpoint`. -/
def getEndpoint (he : Halfedge) : Option Vertex :=
  if he.edge.lSite = he.site then he.edge.vb else he.edge.va

/-- Source `prepareHalfedges`: drop halfedges whose edge lost an endpoint,
then sort by descending `angle` (JavaScript's `sort` is stable; so is
`mergeSort`). -/
def prepareHalfedges (cell : Cell) : Cell :=
  let pruned := cell.halfedges.filter
    (fun he => he.edge.va.isSome && he.edge.vb.isSome)
  { cell with
      halfedges := pruned.mergeSort (fun a b => decide (b.angle ≤ a.angle)) }

/-- The four border-walk directions of `closeCells` (left side downward,
bottom side rightward, right side upward, top side leftward). -/
inductive BorderSide where
  | left
  | bottom
  | right
  | top
deriving DecidableEq, Repr

/-- One border segment of the `closeCells` walk: whether this is the last
segment (the target `vz` lies on this side, `equalWithEpsilon`) and the
segment's end vertex (the target's projection when last, otherwise the
side's far corner). -/
def borderSegment (bbox : BBox) (vz : Vertex) : BorderSide → Bool × Vertex
  | .left =>
      (decide (equalWithEpsilon vz.x bbox.xl),
       ⟨bbox.xl, if equalWithEpsilon vz.x bbox.xl then vz.y else bbox.yb⟩)
  | .bottom =>
      (decide (equalWithEpsilon vz.y bbox.yb),
       ⟨if equalWithEpsilon vz.y bbox.yb then vz.x else bbox.xr, bbox.yb⟩)
  | .right =>
      (decide (equalWithEpsilon vz.x bbox.xr),
       ⟨bbox.xr, if equalWithEpsilon vz.x bbox.xr then vz.y else bbox.yt⟩)
  | .top =>
      (decide (equalWithEpsilon vz.y bbox.yt),
       ⟨if equalWithEpsilon vz.y bbox.yt then vz.x else bbox.xl, bbox.yt⟩)

/-- The sequence of sides the fall-through `switch` of `closeCells` can
execute from each entry case: entering at the left-side case runs
left, bottom, right, top and then the top case's three inlined extra
segments (down, right-ward, up); later entries run the corresponding
suffix.  Falling off the end reaches the `default` clause, which throws. -/
def borderSequence : BorderSide → List BorderSide
  | .left => [.left, .bottom, .right, .top, .left, .bottom, .right]
  | .bottom => [.bottom, .right, .top, .left, .bottom, .right]
  | .right => [.right, .top, .left, .bottom, .right]
  | .top => [.top, .left, .bottom, .right]

/-- The entry case of the border walk selected by the `switch (true)` on
the open endpoint `va` (first matching guard, in source order); `none`
falls through to `default`, i.e. the
`throw "Voronoi.closeCells() > this makes no sense!"`. -/
def borderEntry (bbox : BBox) (va : Vertex) : Option BorderSide :=
  if equalWithEpsilon va.x bbox.xl ∧ lessThanWithEpsilon va.y bbox.yb then
    some .left
  else if equalWithEpsilon va.y bbox.yb ∧ lessThanWithEpsilon va.x bbox.xr then
    some .bottom
  else if equalWithEpsilon va.x bbox.xr ∧ greaterThanWithEpsilon va.y bbox.yt then
    some .right
  else if equalWithEpsilon va.y bbox.yt ∧ greaterThanWithEpsilon va.x bbox.xl then
    some .top
  else none

/-- Run the border-walk segments from the open endpoint `va` toward the
target `vz`: each segment creates a vertex (`createVertex`), a border edge
(`createBorderEdge cell.site va vb`) and a halfedge spliced into the
cell's list; the walk stops at the segment whose side contains `vz`
(`lastBorderSegment`), and exhausting the sequence models reaching the
`default` clause. -/
def runBorder (at2 : ℚ → ℚ → ℚ) (bbox : BBox) (site : VSite) (vz : Vertex) :
    List BorderSide → Vertex →
    Except JsError (List Halfedge × List Edge × List Vertex)
  | [], _ => .error .closeCellsNoSense
  | side :: rest, va => do
      let seg := borderSegment bbox vz side
      let vbv := seg.2
      let e : Edge := ⟨site, none, some va, some vbv⟩
      let he ← createHalfedge at2 e site none
      if seg.1 then
        .ok ([he], [e], [vbv])
      else do
        let (hes, es, vsn) ← runBorder at2 bbox site vz rest vbv
        .ok (he :: hes, e :: es, vbv :: vsn)

/-- The gap-scanning loop of `closeCells` over one cell's (prepared)
halfedges: `va` is the current halfedge's endpoint, `vz` the next
halfedge's start point (wrapping to the cell's first halfedge), and any
gap of at least `ε` in some coordinate is filled by a border walk whose
new halfedges are inserted right after the current one.  Inserted
halfedges are never rescanned (the source's `iLeft` index moves past
them), so the recursion is over the original list. -/
def closeWalk (at2 : ℚ → ℚ → ℚ) (bbox : BBox) (site : VSite)
    (firstHe : Halfedge) :
    List Halfedge → List Edge → List Vertex →
    Except JsError (List Halfedge × List Edge × List Vertex)
  | [], es, vs => .ok ([], es, vs)
  | he :: rest, es, vs => do
      let nextHe := match rest with
        | [] => firstHe
        | nxt :: _ => nxt
      match getEndpoint he, getStartpoint nextHe with
      | some va, some vz =>
          if eps ≤ |va.x - vz.x| ∨ eps ≤ |va.y - vz.y| then do
            match borderEntry bbox va with
            | none => .error .closeCellsNoSense
            | some entry => do
                let (newHes, newEs, newVs) ←
                  runBorder at2 bbox site vz (borderSequence entry) va
                let (tl, es2, vs2) ←
                  closeWalk at2 bbox site firstHe rest (es ++ newEs) (vs ++ newVs)
                .ok (he :: (newHes ++ tl), es2, vs2)
          else do
            let (tl, es2, vs2) ← closeWalk at2 bbox site firstHe rest es vs
            .ok (he :: tl, es2, vs2)
      | _, _ => .error .typeError

/-- Per-cell body of `closeCells`: prepare the halfedges, skip the cell
when none are left or it is not flagged, otherwise walk the gaps and clear
the flag. -/
def closeOneCell (at2 : ℚ → ℚ → ℚ) (bbox : BBox) (cell : Cell)
    (es : List Edge) (vs : List Vertex) :
    Except JsError (Cell × List Edge × List Vertex) :=
  let c := prepareHalfedges cell
  match c.halfedges with
  | [] => .ok (c, es, vs)
  | firstHe :: _ =>
      if c.closeMe then do
        let (hes, es2, vs2) := (← closeWalk at2 bbox c.site firstHe c.halfedges es vs)
        .ok ({ c with halfedges := hes, closeMe := false }, es2, vs2)
      else
        .ok (c, es, vs)

/-- The `closeCells` loop over the cell collection (backward iteration:
later cells are processed first, as in the source's `while (iCell--)`). -/
def closeCellsGo (at2 : ℚ → ℚ → ℚ) (bbox : BBox) :
    List Cell → List Edge → List Vertex →
    Except JsError (List Cell × List Edge × List Vertex)
  | [], es, vs => .ok ([], es, vs)
  | c :: rest, es, vs => do
      let (rest2, es2, vs2) ← closeCellsGo at2 bbox rest es vs
      let (c2, es3, vs3) ← closeOneCell at2 bbox c es2 vs2
      .ok (c2 :: rest2, es3, vs3)

/-! ## recycle (source lines 1526–1534)

`recycle(diagram)` does nothing at all when the argument is falsy
(`if (diagram)`), stores it in `toRecycle` when it is a `Diagram`
instance, and throws otherwise.  The state is returned together with an
optional error so the claim about the state being left unchanged is
directly expressible. -/

/-- A JavaScript value as far as `recycle` can distinguish one: the falsy
values, a `Diagram` instance, or any other truthy value. -/
inductive JsValue where
  | vNull
  | vUndefined
  | vBool (b : Bool)
  | vNum (q : ℚ)
  | vStr (s : String)
  | vDiagram (d : Diagram)
  | vOtherObject
deriving DecidableEq

/-- JavaScript truthiness (`NaN` is not representable in `ℚ` and out of
the model's scope). -/
def truthy : JsValue → Bool
  | .vNull => false
  | .vUndefined => false
  | .vBool b => b
  | .vNum q => decide (q ≠ 0)
  | .vStr s => decide (s ≠ "")
  | .vDiagram _ => true
  | .vOtherObject => true

/-- The `instanceof this.Diagram` test. -/
def isDiagramInstance : JsValue → Bool
  | .vDiagram _ => true
  | _ => false

/-- Source `recycle`: returns the (possibly updated) pool state and the
error thrown, if any. -/
def recycle (pools : Pools) (v : JsValue) : Pools × Option JsError :=
  if truthy v then
    match v with
    | .vDiagram d => ({ pools with toRecycle := some d }, none)
    | _ => (pools, some .needsDiagram)
  else
    (pools, none)

/-! ## filterSimilarPoints (source lines 1644–1671)

Marks every point whose (original) predecessor is within `threshold` in
both coordinates, additionally marks the last point when it is within
threshold of the first, filters the marked points out, and finally pops
the last survivor when it is still within threshold of the first
survivor.  The source dereferences `points[0].x` (throwing on an empty
input) and `filteredPts[0].x` (throwing when everything was filtered away
— which happens for a singleton input and a positive threshold, since the
wraparound check compares the point with itself). -/

/-- The closeness test of `filterSimilarPoints`
(`|Δx| < threshold && |Δy| < threshold`). -/
def ptClose (p q : Pt) (t : ℚ) : Prop := |p.x - q.x| < t ∧ |p.y - q.y| < t

instance (p q : Pt) (t : ℚ) : Decidable (ptClose p q t) := by
  unfold ptClose; infer_instance

/-- The indexes added to `indexesTooCloseToPrevious` by the main loop
(`for i in [0, points.length - 1)`): `i + 1` whenever the consecutive
pair `(points[i], points[i+1])` is within threshold in both axes. -/
def consecutiveMarks (points : List Pt) (t : ℚ) : List ℕ :=
  (List.range (points.length - 1)).filterMap
    (fun i =>
      match points[i]?, points[i + 1]? with
      | some p, some q => if ptClose p q t then some (i + 1) else none
      | _, _ => none)

/-- Source `filterSimilarPoints` (the source's default `threshold` is
`0.002`). -/
def filterSimilarPoints (points : List Pt) (threshold : ℚ) :
    Except JsError (List Pt) :=
  let marks := consecutiveMarks points threshold
  match points.head?, points.getLast? with
  | some p0, some pl =>
      let marks :=
        if ptClose p0 pl threshold then marks ++ [points.length - 1] else marks
      let filtered :=
        (points.enum.filter (fun ip => decide (ip.1 ∉ marks))).map (·.2)
      match filtered.head?, filtered.getLast? with
      | some q0, some ql =>
          .ok (if ptClose q0 ql threshold then filtered.dropLast else filtered)
      | _, _ => .error .typeError
  | _, _ => .error .typeError

/-- Modelled from the claim's own wording, for refinement comparison with
the source function: a point at index `i` is removed when its predecessor
(at `i - 1`) is within threshold in both axes, or — for the last point —
when the first point is; afterwards the new last point is dropped when it
is still within threshold of the new first point. -/
def removedBySpec (points : List Pt) (t : ℚ) (i : ℕ) : Bool :=
  (decide (1 ≤ i) &&
    match points[i - 1]?, points[i]? with
    | some p, some q => decide (ptClose p q t)
    | _, _ => false) ||
  (decide (i = points.length - 1) &&
    match points.head?, points.getLast? with
    | some p, some q => decide (ptClose p q t)
    | _, _ => false)

/-- The claim's description of `filterSimilarPoints` as a total function. -/
def filterSimilarPointsSpec (points : List Pt) (t : ℚ) : List Pt :=
  let filtered :=
    (points.enum.filter (fun ip => ! removedBySpec points t ip.1)).map (·.2)
  match filtered.head?, filtered.getLast? with
  | some q0, some ql =>
      if ptClose q0 ql t then filtered.dropLast else filtered
  | _, _ => filtered

/-! ## compute (source lines 1539–1626)

`compute` resets the instance, folds any pending recycled diagram into the
junkyards, sorts the sites descending by `(y, x)` and consumes them by
`pop()` from the array's end, running the sweep loop until neither a site
event nor a circle event remains, then clips and closes.  As explained in
the header, `addBeachsection` throws a `TypeError` at its beachline
insertion on every call, and no circle event can ever exist (circle events
are only created by `attachCircleEvent`, which is only called after a
beachline insertion succeeded).  The loop below is the faithful residue:
the first processed (non-duplicate) site throws; since the very first site
is never a duplicate (`xsitex`/`xsitey` start out `undefined`), `compute`
throws for every non-empty input and completes only for the empty one. -/

/-- Source `initCell`: every field of the recycled cell is overwritten. -/
def initCell (cell : Cell) (site : VSite) : Cell :=
  { cell with site := site, halfedges := [], closeMe := false }

/-- Source `createCell`: pop the cell junkyard or allocate fresh. -/
def createCell (pools : Pools) (site : VSite) : Cell × Pools :=
  match pools.cellJunkyard with
  | c :: rest => (initCell c site, { pools with cellJunkyard := rest })
  | [] => (⟨site, [], false⟩, pools)

/-- Source `createBeachsection`: pop the beachsection junkyard or allocate
fresh; either way the `site` field is (re)assigned. -/
def createBeachsection (pools : Pools) (site : VSite) : Beachsection × Pools :=
  match pools.beachsectionJunkyard with
  | _b :: rest => (⟨site⟩, { pools with beachsectionJunkyard := rest })
  | [] => (⟨site⟩, pools)

/-- The recycling step at the top of `compute`: concatenate the pending
diagram's arrays onto the junkyards and clear `toRecycle`. -/
def mergeRecycle (pools : Pools) : Pools :=
  match pools.toRecycle with
  | some d =>
      { pools with
          vertexJunkyard := pools.vertexJunkyard ++ d.vertices
          edgeJunkyard := pools.edgeJunkyard ++ d.edges
          cellJunkyard := pools.cellJunkyard ++ d.cells
          toRecycle := none }
  | none => pools

/-- The site-event comparator of `compute`
(`(a, b) => b.y - a.y || b.x - a.x`), as the stable-sort predicate
`a stays before b` (comparator value `≤ 0`); JavaScript's `Array.sort` is
required to be stable since ES2019. -/
def siteBefore (a b : Pt) : Bool :=
  decide (b.y < a.y ∨ (b.y = a.y ∧ b.x ≤ a.x))

/-- The mutable per-computation state of the sweep that the claims can
observe: the growing cell/edge/vertex collections and the head of the
circle-event queue (`firstCircleEvent`).  The beachline and circle-event
trees themselves are omitted: their roots provably stay `null` forever
(no `rbInsertSuccessor` call ever completes). -/
structure SweepState where
  cells : List Cell
  edges : List Edge
  vertices : List Vertex
  firstCircleEvent : Option CircleEvent
deriving DecidableEq, Repr

/-- The main event loop of `compute` over the popped site stream.
`xsite` is the last processed site's coordinates (`xsitex`/`xsitey`,
initially `undefined`, modelled as `none`), `siteid` the next cell id.
A non-duplicate site creates its cell (`cells[siteid] = createCell(site)`,
`site.voronoiId = siteid++`) and then calls `addBeachsection`, which
throws a `TypeError` at `this.beachline.rbInsertSuccessor(lArc, newArc)`
(the beachline root is still `null`, so the breakpoint descent loop body
never ran); the thrown error discards the state built so far, which the
`Except.error` result models.  A duplicate site is skipped entirely.  A
pending circle event would be handled by `removeBeachsection`, whose
`detachBeachsection` calls `this.beachline.rbRemoveNode` — also missing,
also a `TypeError`. -/
def mainLoop (pools : Pools) (st : SweepState) :
    List Pt → Option (ℚ × ℚ) → ℕ → Except JsError SweepState
  | [], _, _ =>
      match st.firstCircleEvent with
      | some _ => .error .typeError
      | none => .ok st
  | site :: rest, xsite, siteid =>
      let takeSite :=
        match st.firstCircleEvent with
        | none => true
        | some c => decide (site.y < c.y ∨ (site.y = c.y ∧ site.x < c.x))
      if takeSite then
        if some (site.x, site.y) ≠ xsite then
          let vsite : VSite := ⟨site.x, site.y, siteid⟩
          let (_cell, pools1) := createCell pools vsite
          let (_arc, _pools2) := createBeachsection pools1 vsite
          .error .typeError
        else
          mainLoop pools st rest xsite siteid
      else
        .error .typeError

/-- Source `compute`: reset, fold in the recycled diagram, sort the site
events, run the sweep loop, clip the edges, close the cells, and package
the diagram.  `at2` stands in for `Math.atan2`; the wall-clock `execTime`
is outside the value model. -/
def compute (at2 : ℚ → ℚ → ℚ) (pools : Pools) (sites : List Pt)
    (bbox : BBox) : Except JsError Diagram := do
  let pools := mergeRecycle pools
  let st : SweepState := ⟨[], [], [], none⟩
  let siteEvents := sites.mergeSort siteBefore
  let st ← mainLoop pools st siteEvents.reverse none 0
  let (edges1, cells1, vertices1) ← clipEdgesGo bbox st.cells st.vertices st.edges
  let (cells2, edges2, vertices2) ← closeCellsGo at2 bbox cells1 edges1 vertices1
  .ok ⟨cells2, edges2, vertices2⟩

/-! ## Behaviour of compute -/

/-- On the empty input no event is ever processed, the clipping and
closing passes see empty collections, and `compute` returns the empty
diagram. -/
theorem compute_nil (at2 : ℚ → ℚ → ℚ) (pools : Pools) (bbox : BBox) :
    compute at2 pools [] bbox = .ok ⟨[], [], []⟩ := by
  unfold compute
  dsimp only
  rw [List.mergeSort_nil]
  rfl

/-- On any non-empty input the first popped site is not a duplicate of
the (undefined) previous site, so `addBeachsection` is reached and its
beachline insertion throws. -/
theorem compute_error_of_ne_nil (at2 : ℚ → ℚ → ℚ) (pools : Pools)
    (sites : List Pt) (bbox : BBox) (h : sites ≠ []) :
    compute at2 pools sites bbox = .error .typeError := by
  unfold compute
  dsimp only
  rcases hrev : (sites.mergeSort siteBefore).reverse with _ | ⟨x, xs⟩
  · exact absurd (List.eq_nil_of_length_eq_zero (by
      have hlen := congrArg List.length hrev
      simpa [List.length_mergeSort] using hlen)) h
  · rfl

/-- Claim C1: for every bounding box with `xl < xr` and `yt < yb` and
every input of zero or one site strictly inside it, `compute` is claimed
to return a valid diagram without raising, with the one-site cell's
polygon equal to the rectangle.  The code disagrees on the one-site half:
the zero-site call indeed completes (returning the empty diagram), but a
one-site call throws a `TypeError` at
`this.beachline.rbInsertSuccessor(lArc, newArc)` (source line 958) because
the red-black-tree routines are methods of the `Voronoi` class, not of the
`RBTree` instances they are invoked on; no diagram is returned at all
(and, independently, the `closeCells` special case for a single site is
only a comment stub at source lines 1408–1409, so even a repaired sweep
would leave the single cell's polygon empty).  The bounding-box and
strictly-inside hypotheses of the claim are irrelevant to this behaviour,
so the theorem quantifies over all of them. -/
theorem claim1_zero_or_one_site (at2 : ℚ → ℚ → ℚ) (pools : Pools)
    (bbox : BBox) (s : Pt) :
    compute at2 pools [] bbox = .ok ⟨[], [], []⟩ ∧
    compute at2 pools [s] bbox = .error .typeError :=
  ⟨compute_nil at2 pools bbox,
   compute_error_of_ne_nil at2 pools [s] bbox (by simp)⟩

/-- Claim C2: a site list with one exact duplicate is claimed to yield
`N - 1` cells with densely numbered ids.  In the code, `compute` never
gets that far: the very first processed site already throws the
`TypeError` described in `claim1_zero_or_one_site`, so a duplicated pair
(the smallest instance of the claim, `N = 2`) produces no cells and no
ids — the call raises instead.  The duplicate-skipping comparison against
`xsitex`/`xsitey` (source lines 1580–1589) is translated in `mainLoop`
but is unreachable beyond the first site. -/
theorem claim2_duplicate_sites (at2 : ℚ → ℚ → ℚ) (pools : Pools)
    (bbox : BBox) (s : Pt) :
    compute at2 pools [s, s] bbox = .error .typeError :=
  compute_error_of_ne_nil at2 pools [s, s] bbox (by simp)

/-- Claim C7: `compute` is deterministic in the value model — two calls
with the same site values in the same order and the same bounding box
produce the same result, whatever the contents of the recycling pools
(`Pools` collects all five junkyards and the pending `toRecycle`
diagram).  Junkyard entries are fully overwritten before reuse
(`initCell`, `createBeachsection`), so pool contents never reach the
output; for non-empty inputs both calls raise the same `TypeError`, and
for the empty input both return the empty diagram. -/
theorem claim7_compute_deterministic (at2 : ℚ → ℚ → ℚ)
    (pools1 pools2 : Pools) (sites : List Pt) (bbox : BBox) :
    compute at2 pools1 sites bbox = compute at2 pools2 sites bbox := by
  rcases sites with _ | ⟨s, rest⟩
  · rw [compute_nil, compute_nil]
  · rw [compute_error_of_ne_nil at2 pools1 (s :: rest) bbox (by simp),
        compute_error_of_ne_nil at2 pools2 (s :: rest) bbox (by simp)]

/-! ## Small Except-reduction lemmas used in the proofs -/

@[simp] theorem exceptBind_ok {ε α β : Type} (a : α) (f : α → Except ε β) :
    (Except.ok a >>= f) = f a := rfl

@[simp] theorem exceptBind_error {ε α β : Type} (e : ε) (f : α → Except ε β) :
    ((Except.error e : Except ε α) >>= f) = .error e := rfl

@[simp] theorem exceptPure {ε α : Type} (a : α) :
    (pure a : Except ε α) = .ok a := rfl

/-! ## Claim C9: the frame behaviour of connectEdge -/

/-- Claim C9: for every edge whose endpoint `vb` is already set,
`connectEdge` returns `true` without modifying the edge, without creating
any vertex, and without setting either adjacent cell's `closeMe` flag; and
on the path where `vb` is initially unset the `closeMe` flags of both
adjacent cells are set (the `closeMe := true` effect) whenever the call
returns at all — in particular also when it returns `false`, since the
flag assignment precedes every `return false`. -/
theorem claim9_connectEdge_frame (edge : Edge) (bbox : BBox) :
    (∀ v, edge.vb = some v → connectEdge edge bbox = .ok ⟨true, edge, [], false⟩) ∧
    (edge.vb = none → ∀ out, connectEdge edge bbox = .ok out → out.closeMe = true) := by
  constructor
  · intro v hv
    unfold connectEdge
    rw [hv]
  · intro hv out hout
    unfold connectEdge at hout
    rw [hv] at hout
    cases hr : edge.rSite with
    | none => rw [hr] at hout; cases hout
    | some r =>
        rw [hr] at hout
        cases hout
        rfl

/-- Claim C9 witness: the theorem applied to a concrete closed edge (both
endpoints set) and to a concrete open edge (producing `closeMe = true`). -/
theorem claim9_witness :
    connectEdge ⟨⟨0, 0, 0⟩, some ⟨1, 0, 1⟩, some ⟨2, 2⟩, some ⟨3, 3⟩⟩ ⟨0, 1, 0, 1⟩ =
      .ok ⟨true, ⟨⟨0, 0, 0⟩, some ⟨1, 0, 1⟩, some ⟨2, 2⟩, some ⟨3, 3⟩⟩, [], false⟩ ∧
    ∃ out, connectEdge ⟨⟨0, 0, 0⟩, some ⟨1, 0, 1⟩, none, none⟩ ⟨0, 1, 0, 1⟩ = .ok out ∧
      out.closeMe = true := by
  have h2 : connectEdge ⟨⟨0, 0, 0⟩, some ⟨1, 0, 1⟩, none, none⟩ ⟨0, 1, 0, 1⟩ =
      .ok ⟨true, ⟨⟨0, 0, 0⟩, some ⟨1, 0, 1⟩, some ⟨1/2, 1⟩, some ⟨1/2, 0⟩⟩,
           [⟨1/2, 1⟩, ⟨1/2, 0⟩], true⟩ := by
    norm_num [connectEdge, connectEdgeOpen, connectPick]
  exact ⟨(claim9_connectEdge_frame _ _).1 ⟨3, 3⟩ rfl,
         _, h2, (claim9_connectEdge_frame _ _).2 rfl _ h2⟩

/-! ## Characterization of the clipEdges loop -/

/-- When the degeneracy test returns, it keeps exactly `keptOfClip` and
leaves the vertex store alone. -/
theorem clipDegenerate_ok_spec (cells : List Cell) (vs : List Vertex)
    (cl : ClipOut) (out : Option Edge × List Cell × List Vertex)
    (h : clipDegenerate cells vs cl = .ok out) :
    out.1 = keptOfClip cl ∧ out.2.2 = vs := by
  unfold clipDegenerate at h
  unfold keptOfClip
  split at h
  · split at h
    · split at h
      · cases h; simp_all
      · cases h; simp_all
    · cases h
  · cases h; simp_all

/-- A `closeMe` flag-application step that returns hands some cell state
to its continuation. -/
theorem flagStep_ok {γ : Type} (b : Bool) (cells : List Cell) (e : Edge)
    (k : List Cell → Except JsError γ) (out : γ)
    (h : (if b then flagAdjacent cells e >>= k else pure cells >>= k) = .ok out) :
    ∃ cells1, k cells1 = .ok out := by
  cases b with
  | false =>
      simp only [Bool.false_eq_true, if_false, exceptPure, exceptBind_ok] at h
      exact ⟨cells, h⟩
  | true =>
      simp only [if_true] at h
      cases hfa : flagAdjacent cells e with
      | error er => rw [hfa] at h; cases h
      | ok cells1 => rw [hfa] at h; exact ⟨cells1, by simpa using h⟩

/-- When the clipping stage returns, the kept edge is the pure decision
and the vertex store has only been extended. -/
theorem clipFinish_ok_spec (bbox : BBox) (cells : List Cell)
    (vs : List Vertex) (co : ConnOut) (out : Option Edge × List Cell × List Vertex)
    (h : clipFinish bbox cells vs co = .ok out) :
    out.1 = (match clipEdge co.edge bbox with
             | .error _ => none
             | .ok cl => if co.ok then keptOfClip cl else none) ∧
    ∃ created, out.2.2 = vs ++ created := by
  unfold clipFinish at h
  cases hok : co.ok with
  | false =>
      rw [hok] at h
      simp only [Bool.false_eq_true, if_false] at h
      cases h
      refine ⟨?_, [], by simp⟩
      cases clipEdge co.edge bbox <;> simp
  | true =>
      rw [hok] at h
      simp only [if_true] at h
      cases hcl : clipEdge co.edge bbox with
      | error er => rw [hcl] at h; cases h
      | ok cl =>
          rw [hcl] at h
          simp only [exceptBind_ok] at h
          obtain ⟨cells1, hk⟩ := flagStep_ok cl.closeMe cells co.edge _ _ h
          obtain ⟨h1, h2⟩ := clipDegenerate_ok_spec _ _ _ _ hk
          exact ⟨by simp [h1], cl.created, h2⟩

/-- When the processing of one edge inside `clipEdges` returns, the edge
kept (if any) is the pure per-edge decision `keptResult`, and the vertex
store has only been extended at the end. -/
theorem clipOneEdge_ok_spec (bbox : BBox) (cells : List Cell)
    (vs : List Vertex) (e : Edge) (out : Option Edge × List Cell × List Vertex)
    (h : clipOneEdge bbox cells vs e = .ok out) :
    out.1 = keptResult bbox e ∧ ∃ created, out.2.2 = vs ++ created := by
  unfold clipOneEdge at h
  cases hco : connectEdge e bbox with
  | error er => rw [hco] at h; cases h
  | ok co =>
      rw [hco] at h
      simp only [exceptBind_ok] at h
      obtain ⟨cells1, hk⟩ := flagStep_ok co.closeMe cells e _ _ h
      obtain ⟨h1, created, h3⟩ := clipFinish_ok_spec _ _ _ _ _ hk
      constructor
      · rw [h1]
        unfold keptResult
        rw [hco]
        cases hok : co.ok <;> cases hcl : clipEdge co.edge bbox <;> simp [hok, hcl]
      · exact ⟨co.created ++ created, by rw [h3]; simp⟩

/-- The full `clipEdges` loop: the surviving edge list is the
`filterMap` of the pure per-edge decision over the original collection
(order preserved), and the vertex store is only ever extended. -/
theorem clipEdgesGo_ok_spec (bbox : BBox) :
    ∀ (edges : List Edge) (cells : List Cell) (vs : List Vertex)
      (out : List Edge × List Cell × List Vertex),
      clipEdgesGo bbox cells vs edges = .ok out →
      out.1 = edges.filterMap (keptResult bbox) ∧
      ∃ created, out.2.2 = vs ++ created := by
  intro edges
  induction edges with
  | nil =>
      intro cells vs out h
      cases h
      exact ⟨rfl, [], by simp⟩
  | cons e rest ih =>
      intro cells vs out h
      unfold clipEdgesGo at h
      cases hrec : clipEdgesGo bbox cells vs rest with
      | error er => rw [hrec] at h; cases h
      | ok mid =>
          rw [hrec] at h
          simp only [exceptBind_ok] at h
          obtain ⟨r2, c2, v2⟩ := mid
          obtain ⟨hrest, cr1, hvs1⟩ := ih cells vs (r2, c2, v2) hrec
          cases hone : clipOneEdge bbox c2 v2 e with
          | error er => rw [hone] at h; cases h
          | ok one =>
              rw [hone] at h
              simp only [exceptBind_ok] at h
              obtain ⟨k, c3, v3⟩ := one
              obtain ⟨hk, cr2, hv3⟩ := clipOneEdge_ok_spec bbox c2 v2 e (k, c3, v3) hone
              simp only at hk hv3 hrest hvs1
              cases k with
              | none =>
                  cases h
                  refine ⟨?_, cr1 ++ cr2, ?_⟩
                  · simp only [List.filterMap_cons, ← hk]
                    exact hrest
                  · simp only
                    rw [hv3, hvs1, List.append_assoc]
              | some e2 =>
                  cases h
                  refine ⟨?_, cr1 ++ cr2, ?_⟩
                  · simp only [List.filterMap_cons, ← hk]
                    rw [hrest]
                  · simp only
                    rw [hv3, hvs1, List.append_assoc]

/-- The pure per-edge decision spelled out as the three conditions of the
claim: an edge survives with value `e2` exactly when `connectEdge`
succeeded, `clipEdge` succeeded, and the clipped endpoints differ by at
least `ε` in some coordinate. -/
theorem keptResult_iff (bbox : BBox) (e e2 : Edge) :
    keptResult bbox e = some e2 ↔
    ∃ co cl a b,
      connectEdge e bbox = .ok co ∧ co.ok = true ∧
      clipEdge co.edge bbox = .ok cl ∧ cl.ok = true ∧
      cl.edge.va = some a ∧ cl.edge.vb = some b ∧
      (eps ≤ |a.x - b.x| ∨ eps ≤ |a.y - b.y|) ∧ e2 = cl.edge := by
  unfold keptResult
  cases hco : connectEdge e bbox with
  | error er => simp [hco]
  | ok co =>
      cases hok : co.ok with
      | false => simp [hco, hok]
      | true =>
          simp only [hok, if_true]
          cases hcl : clipEdge co.edge bbox with
          | error er => simp [hco, hcl, hok]
          | ok cl =>
              simp only [hcl]
              unfold keptOfClip
              cases hclok : cl.ok with
              | false => simp [hco, hcl, hok, hclok]
              | true =>
                  simp only [hclok, if_true]
                  cases hva : cl.edge.va with
                  | none => simp [hco, hcl, hok, hclok, hva]
                  | some a =>
                      cases hvb : cl.edge.vb with
                      | none => simp [hco, hcl, hok, hclok, hva, hvb]
                      | some b =>
                          by_cases hdeg : |a.x - b.x| < eps ∧ |a.y - b.y| < eps
                          · simp only [if_pos hdeg]
                            simp [hco, hcl, hok, hclok, hva, hvb]
                            intro hle
                            rcases hle with hle | hle
                            · exact absurd hdeg.1 (not_lt.mpr hle)
                            · exact absurd hdeg.2 (not_lt.mpr hle)
                          · simp only [if_neg hdeg]
                            rw [not_and_or, not_lt, not_lt] at hdeg
                            constructor
                            · intro hsome
                              cases hsome
                              exact ⟨co, cl, a, b, rfl, hok, hcl, hclok, hva, hvb,
                                     hdeg, rfl⟩
                            · rintro ⟨co2, cl2, a2, b2, hco2, hok2, hcl2, hclok2,
                                      hva2, hvb2, hdeg2, he2⟩
                              injection hco2 with hco3
                              subst hco3
                              rw [hcl] at hcl2
                              injection hcl2 with hcl3
                              subst hcl3
                              rw [he2]

/-- Claim C3: after `clipEdges` runs (modelled by `clipEdgesGo`, which
returns normally exactly when no edge's processing throws), an edge
remains in the diagram's edge collection if and only if `connectEdge`
succeeded on it, `clipEdge` succeeded on it, and its two clipped
endpoints differ by at least `1e-9` in at least one coordinate; every
edge failing any of these three conditions is dropped and the loop simply
continues with the next edge (the surviving list is the `filterMap` of
the pure per-edge decision, so a dropped edge has no other effect on the
collection). -/
theorem claim3_clipEdges_removal (bbox : BBox) (cells : List Cell)
    (vs : List Vertex) (edges : List Edge)
    (out : List Edge × List Cell × List Vertex)
    (h : clipEdgesGo bbox cells vs edges = .ok out) :
    out.1 = edges.filterMap (keptResult bbox) ∧
    ∀ e e2, keptResult bbox e = some e2 ↔
      ∃ co cl a b,
        connectEdge e bbox = .ok co ∧ co.ok = true ∧
        clipEdge co.edge bbox = .ok cl ∧ cl.ok = true ∧
        cl.edge.va = some a ∧ cl.edge.vb = some b ∧
        (eps ≤ |a.x - b.x| ∨ eps ≤ |a.y - b.y|) ∧ e2 = cl.edge :=
  ⟨(clipEdgesGo_ok_spec bbox edges cells vs out h).1,
   fun e e2 => keptResult_iff bbox e e2⟩

/-- Claim C3 witness: a concrete two-edge run.  The first processed edge
(last in the array) lies wholly left of the box and is dropped by
`clipEdge`; the other crosses the box vertically, is clipped on both ends
and survives.  The loop returns normally and keeps exactly the surviving
clipped edge. -/
theorem claim3_witness :
    ∃ out,
      clipEdgesGo ⟨0, 1, 0, 1⟩
        [⟨⟨1/4, 1/2, 0⟩, [], false⟩, ⟨⟨3/4, 1/2, 1⟩, [], false⟩] []
        [⟨⟨1/4, 1/2, 0⟩, some ⟨3/4, 1/2, 1⟩, some ⟨1/2, -1⟩, some ⟨1/2, 2⟩⟩,
         ⟨⟨1/4, 1/2, 0⟩, some ⟨3/4, 1/2, 1⟩, some ⟨-2, -1⟩, some ⟨-2, 2⟩⟩] = .ok out ∧
      out.1 =
        [⟨⟨1/4, 1/2, 0⟩, some ⟨3/4, 1/2, 1⟩, some ⟨1/2, -1⟩, some ⟨1/2, 2⟩⟩,
         ⟨⟨1/4, 1/2, 0⟩, some ⟨3/4, 1/2, 1⟩, some ⟨-2, -1⟩, some ⟨-2, 2⟩⟩].filterMap
          (keptResult ⟨0, 1, 0, 1⟩) ∧
      out.1 = [⟨⟨1/4, 1/2, 0⟩, some ⟨3/4, 1/2, 1⟩, some ⟨1/2, 0⟩, some ⟨1/2, 1⟩⟩] := by
  have hrun :
      clipEdgesGo ⟨0, 1, 0, 1⟩
        [⟨⟨1/4, 1/2, 0⟩, [], false⟩, ⟨⟨3/4, 1/2, 1⟩, [], false⟩] []
        [⟨⟨1/4, 1/2, 0⟩, some ⟨3/4, 1/2, 1⟩, some ⟨1/2, -1⟩, some ⟨1/2, 2⟩⟩,
         ⟨⟨1/4, 1/2, 0⟩, some ⟨3/4, 1/2, 1⟩, some ⟨-2, -1⟩, some ⟨-2, 2⟩⟩] =
      .ok ([⟨⟨1/4, 1/2, 0⟩, some ⟨3/4, 1/2, 1⟩, some ⟨1/2, 0⟩, some ⟨1/2, 1⟩⟩],
           [⟨⟨1/4, 1/2, 0⟩, [], true⟩, ⟨⟨3/4, 1/2, 1⟩, [], true⟩],
           [⟨1/2, 0⟩, ⟨1/2, 1⟩]) := by
    norm_num [clipEdgesGo, clipOneEdge, clipFinish, clipDegenerate, connectEdge,
              clipEdge, clipParams, clipLo, clipHi, clipPoint, flagAdjacent,
              flagCloseMe, eps, Except.bind, List.set]
  exact ⟨_, hrun,
         (claim3_clipEdges_removal _ _ _ _ _ hrun).1,
         rfl⟩

/-- Claim C5: `clipEdge` never relocates an existing vertex — when the
clip parameters satisfy `t0 > 0` (resp. `t1 < 1`) the corresponding
endpoint is replaced by a freshly created vertex at the clipped position
(the original endpoint value is untouched and still referenced wherever
it was shared), and across the whole `clipEdges` pass the diagram's
vertex collection is only ever appended to, so a vertex's coordinates are
never mutated once it is in the collection. -/
theorem claim5_clipEdge_fresh_vertices (edge : Edge) (bbox : BBox)
    (a b : Vertex) (t0 t1 : ℚ)
    (hva : edge.va = some a) (hvb : edge.vb = some b)
    (hp : clipParams bbox a b = some (t0, t1)) :
    (∃ out, clipEdge edge bbox = .ok out ∧ out.ok = true ∧
      out.edge.va = (if 0 < t0 then some (clipPoint a b t0) else some a) ∧
      out.edge.vb = (if t1 < 1 then some (clipPoint a b t1) else some b) ∧
      out.edge.lSite = edge.lSite ∧ out.edge.rSite = edge.rSite ∧
      out.created = (if 0 < t0 then [clipPoint a b t0] else []) ++
                    (if t1 < 1 then [clipPoint a b t1] else [])) ∧
    (∀ cells vs edges out, clipEdgesGo bbox cells vs edges = .ok out →
      ∃ created, out.2.2 = vs ++ created) := by
  constructor
  · unfold clipEdge
    rw [hva, hvb]
    dsimp only
    rw [hp]
    refine ⟨_, rfl, rfl, ?_, ?_, ?_, ?_, rfl⟩
    · by_cases h0 : 0 < t0 <;> by_cases h1 : t1 < 1 <;>
        simp [h0, h1, hva]
    · by_cases h0 : 0 < t0 <;> by_cases h1 : t1 < 1 <;>
        simp [h0, h1, hvb]
    · by_cases h0 : 0 < t0 <;> by_cases h1 : t1 < 1 <;>
        simp [h0, h1]
    · by_cases h0 : 0 < t0 <;> by_cases h1 : t1 < 1 <;>
        simp [h0, h1]
  · intro cells vs edges out h
    exact (clipEdgesGo_ok_spec bbox edges cells vs out h).2

/-- Claim C5 witness: a horizontal edge overhanging the unit box on both
sides is clipped at `t0 = 1/3`, `t1 = 2/3`; both endpoints are replaced
by the fresh vertices `(0, 1/2)` and `(1, 1/2)`. -/
theorem claim5_witness :
    ∃ out,
      clipEdge ⟨⟨1/4, 1/2, 0⟩, some ⟨3/4, 1/2, 1⟩, some ⟨-1, 1/2⟩, some ⟨2, 1/2⟩⟩
        ⟨0, 1, 0, 1⟩ = .ok out ∧ out.ok = true ∧
      out.edge.va = some ⟨0, 1/2⟩ ∧ out.edge.vb = some ⟨1, 1/2⟩ ∧
      out.created = [⟨0, 1/2⟩, ⟨1, 1/2⟩] := by
  have hp : clipParams ⟨0, 1, 0, 1⟩ ⟨-1, 1/2⟩ ⟨2, 1/2⟩ = some (1/3, 2/3) := by
    norm_num [clipParams, clipLo, clipHi]
  obtain ⟨⟨out, hout, hok, hva2, hvb2, _, _, hcr⟩, _⟩ :=
    claim5_clipEdge_fresh_vertices
      ⟨⟨1/4, 1/2, 0⟩, some ⟨3/4, 1/2, 1⟩, some ⟨-1, 1/2⟩, some ⟨2, 1/2⟩⟩
      ⟨0, 1, 0, 1⟩ ⟨-1, 1/2⟩ ⟨2, 1/2⟩ (1/3) (2/3) rfl rfl hp
  refine ⟨out, hout, hok, ?_, ?_, ?_⟩
  · rw [hva2]; norm_num [clipPoint]
  · rw [hvb2]; norm_num [clipPoint]
  · rw [hcr]; norm_num [clipPoint]

/-! ## Claim C4: attachCircleEvent -/

/-- The circle event value built by `attachCircleEvent` for sites
`(lSite, cSite, rSite)` (the let-chain of source lines 1083–1115). -/
def circleEventOf (sq : ℚ → ℚ) (lSite cSite rSite : VSite) : CircleEvent :=
  let bx := cSite.x
  let bw := cSite.y
  let ax := lSite.x - bx
  let ay := lSite.y - bw
  let cx := rSite.x - bx
  let cy := rSite.y - bw
  let d := 2 * (ax * cy - ay * cx)
  let ha := ax * ax + ay * ay
  let hc := cx * cx + cy * cy
  let x := (cy * ha - ay * hc) / d
  let y := (ax * hc - cx * ha) / d
  let ycenter := y + bw
  ⟨cSite, x + bx, ycenter + sq (x * x + y * y), ycenter⟩

/-- Branch structure of `attachCircleEvent` on an arc with both
neighbours, phrased with `orientD` and `circleEventOf`. -/
theorem attachCircleEvent_some (sq : ℚ → ℚ) (lA rA arc : Beachsection) :
    attachCircleEvent sq (some lA) (some rA) arc =
      if lA.site = rA.site then .skipped
      else if -(2 / 1000000000000 : ℚ) ≤ orientD lA.site arc.site rA.site then .skipped
      else .created (circleEventOf sq lA.site arc.site rA.site) := rfl

/-- The center coordinates computed by `circleEventOf`, relative to the
central site, are equidistant (in the squared sense) from all three
defining sites whenever the orientation quantity is nonzero: they are the
circumcenter, and `X*X + Y*Y` is the squared circumradius. -/
theorem circleEventOf_fields (sq : ℚ → ℚ) (l c rs : VSite) :
    ∃ X Y,
      circleEventOf sq l c rs = ⟨c, X + c.x, (Y + c.y) + sq (X * X + Y * Y), Y + c.y⟩ ∧
      (orientD l c rs ≠ 0 →
        (X - (l.x - c.x)) ^ 2 + (Y - (l.y - c.y)) ^ 2 = X * X + Y * Y ∧
        (X - (rs.x - c.x)) ^ 2 + (Y - (rs.y - c.y)) ^ 2 = X * X + Y * Y) := by
  refine ⟨((rs.y - c.y) * ((l.x - c.x) * (l.x - c.x) + (l.y - c.y) * (l.y - c.y)) -
            (l.y - c.y) * ((rs.x - c.x) * (rs.x - c.x) + (rs.y - c.y) * (rs.y - c.y))) /
            (2 * ((l.x - c.x) * (rs.y - c.y) - (l.y - c.y) * (rs.x - c.x))),
          ((l.x - c.x) * ((rs.x - c.x) * (rs.x - c.x) + (rs.y - c.y) * (rs.y - c.y)) -
            (rs.x - c.x) * ((l.x - c.x) * (l.x - c.x) + (l.y - c.y) * (l.y - c.y))) /
            (2 * ((l.x - c.x) * (rs.y - c.y) - (l.y - c.y) * (rs.x - c.x))),
          rfl, ?_⟩
  intro hd
  unfold orientD at hd
  constructor <;> (field_simp; ring)

/-- Claim C4: for every arc with both a left and a right neighbour,
`attachCircleEvent` creates (and attaches to the arc) a circle event if
and only if the neighbours' sites are distinct and the orientation
quantity `d = 2*(ax*cy - ay*cx)` satisfies `d < -2e-12`; and when
created, the event's `y` is the bottom of the circumcircle: it equals
`ycenter` plus the circumradius, where the circumradius is the
nonnegative number `r` whose square is the squared distance from the
event's center `(ev.x, ev.ycenter)` to each of the three defining sites
(the hypotheses pin the `Math.sqrt` stand-in `sq` down at the one point
where it is applied).  After attaching, the source's circle-event-tree
insertion throws a `TypeError` (see `AttachOutcome.created`), which this
claim does not mention. -/
theorem claim4_attachCircleEvent (sq : ℚ → ℚ) (lA rA arc : Beachsection) :
    ((∃ ev, attachCircleEvent sq (some lA) (some rA) arc = .created ev) ↔
      (lA.site ≠ rA.site ∧
        orientD lA.site arc.site rA.site < -(2 / 1000000000000))) ∧
    (∀ ev, attachCircleEvent sq (some lA) (some rA) arc = .created ev →
      ∀ r, r = sq ((ev.x - arc.site.x) ^ 2 + (ev.ycenter - arc.site.y) ^ 2) →
        0 ≤ r →
        r ^ 2 = (ev.x - arc.site.x) ^ 2 + (ev.ycenter - arc.site.y) ^ 2 →
        ev.y = ev.ycenter + r ∧
        r ^ 2 = (ev.x - lA.site.x) ^ 2 + (ev.ycenter - lA.site.y) ^ 2 ∧
        r ^ 2 = (ev.x - rA.site.x) ^ 2 + (ev.ycenter - rA.site.y) ^ 2) := by
  constructor
  · rw [attachCircleEvent_some]
    by_cases hls : lA.site = rA.site
    · simp [hls]
    · rw [if_neg hls]
      by_cases hd : -(2 / 1000000000000 : ℚ) ≤ orientD lA.site arc.site rA.site
      · simp [if_pos hd, hls, not_lt.mpr hd]
      · simp [if_neg hd, hls, not_le.mp hd]
  · intro ev hev r hr _hrnn hr2
    rw [attachCircleEvent_some] at hev
    by_cases hls : lA.site = rA.site
    · rw [if_pos hls] at hev; cases hev
    rw [if_neg hls] at hev
    by_cases hd : -(2 / 1000000000000 : ℚ) ≤ orientD lA.site arc.site rA.site
    · rw [if_pos hd] at hev; cases hev
    rw [if_neg hd] at hev
    injection hev with he
    obtain ⟨X, Y, hXY, hdist⟩ := circleEventOf_fields sq lA.site arc.site rA.site
    rw [hXY] at he
    subst he
    have hdne : orientD lA.site arc.site rA.site ≠ 0 :=
      ne_of_lt (lt_of_lt_of_le (not_le.mp hd) (by norm_num))
    obtain ⟨hl, hrr⟩ := hdist hdne
    dsimp only at hr hr2 ⊢
    have harg : (X + arc.site.x - arc.site.x) ^ 2 +
        (Y + arc.site.y - arc.site.y) ^ 2 = X * X + Y * Y := by ring
    rw [harg] at hr hr2
    refine ⟨by rw [hr], ?_, ?_⟩
    · rw [hr2, ← hl]; ring
    · rw [hr2, ← hrr]; ring

/-- Claim C4 witness: the triple `(-3, -4)`, `(5, 0)`, `(3, 4)` lies on
the circle of radius `5` around the origin and collapses
(`d = -80 < -2e-12`); the created event has center `(0, 0)` and sweep
position `y = 0 + 5`, the bottom of the circumcircle. -/
theorem claim4_witness :
    ∃ ev,
      attachCircleEvent (fun v => if v = 25 then 5 else 0)
        (some ⟨⟨-3, -4, 0⟩⟩) (some ⟨⟨3, 4, 2⟩⟩) ⟨⟨5, 0, 1⟩⟩ = .created ev ∧
      ev.x = 0 ∧ ev.ycenter = 0 ∧ ev.y = ev.ycenter + 5 ∧
      (5 : ℚ) ^ 2 = (ev.x - (-3)) ^ 2 + (ev.ycenter - (-4)) ^ 2 ∧
      (5 : ℚ) ^ 2 = (ev.x - 3) ^ 2 + (ev.ycenter - 4) ^ 2 := by
  have hev : attachCircleEvent (fun v => if v = 25 then 5 else 0)
      (some ⟨⟨-3, -4, 0⟩⟩) (some ⟨⟨3, 4, 2⟩⟩) ⟨⟨5, 0, 1⟩⟩ =
      .created ⟨⟨5, 0, 1⟩, 0, 5, 0⟩ := by
    norm_num [attachCircleEvent]
  have h2 := (claim4_attachCircleEvent (fun v => if v = 25 then 5 else 0)
      ⟨⟨-3, -4, 0⟩⟩ ⟨⟨3, 4, 2⟩⟩ ⟨⟨5, 0, 1⟩⟩).2
      ⟨⟨5, 0, 1⟩, 0, 5, 0⟩ hev 5 (by norm_num) (by norm_num) (by norm_num)
  exact ⟨⟨⟨5, 0, 1⟩, 0, 5, 0⟩, hev, rfl, rfl, h2.1, h2.2.1, h2.2.2⟩

/-! ## Claim C8: recycle -/

/-- Claim C8 counterexample: `null` is a value that is not a Diagram
object, yet `recycle(null)` raises nothing at all — the `if (diagram)`
guard silently ignores every falsy argument before the `instanceof`
check ever runs.  This refutes the claim that every non-Diagram value
raises. -/
theorem claim8_counterexample :
    isDiagramInstance JsValue.vNull = false ∧
    recycle emptyPools JsValue.vNull = (emptyPools, none) :=
  ⟨rfl, rfl⟩

/-- Claim C8 (amended): for every truthy value that is not a `Diagram`
instance, `recycle` raises immediately and leaves the pending-recycle
state and all junkyard pools unchanged; falsy values (`null`,
`undefined`, `false`, `0`, the empty string) are silently ignored — no
error and no state change. -/
theorem claim8_recycle_amended (pools : Pools) (v : JsValue) :
    (truthy v = true → isDiagramInstance v = false →
      recycle pools v = (pools, some .needsDiagram)) ∧
    (truthy v = false → recycle pools v = (pools, none)) := by
  constructor
  · intro ht hnd
    cases v <;> simp_all [recycle, truthy, isDiagramInstance]
  · intro hf
    cases v <;> simp_all [recycle, truthy]

/-- Claim C8 witness: the amended theorem applied to a concrete truthy
non-Diagram value (an arbitrary foreign object) and to a concrete falsy
value (the number `0`). -/
theorem claim8_witness :
    recycle emptyPools JsValue.vOtherObject = (emptyPools, some .needsDiagram) ∧
    recycle emptyPools (JsValue.vNum 0) = (emptyPools, none) :=
  ⟨(claim8_recycle_amended emptyPools .vOtherObject).1 rfl rfl,
   (claim8_recycle_amended emptyPools (.vNum 0)).2 (by simp [truthy])⟩

/-! ## Claims C6 and C10: filterSimilarPoints -/

/-- Membership in the loop-built mark list: index `m` is marked exactly
when `m ≥ 1` and the pair at `(m-1, m)` is within threshold. -/
theorem mem_consecutiveMarks (points : List Pt) (t : ℚ) (m : ℕ) :
    m ∈ consecutiveMarks points t ↔
    (1 ≤ m ∧ ∃ p q, points[m - 1]? = some p ∧ points[m]? = some q ∧
      ptClose p q t) := by
  unfold consecutiveMarks
  rw [List.mem_filterMap]
  constructor
  · rintro ⟨i, hi, hf⟩
    rw [List.mem_range] at hi
    cases hp : points[i]? with
    | none => simp [hp] at hf
    | some p =>
        cases hq : points[i + 1]? with
        | none => simp [hp, hq] at hf
        | some q =>
            simp only [hp, hq] at hf
            by_cases hc : ptClose p q t
            · rw [if_pos hc] at hf
              injection hf with hm
              subst hm
              exact ⟨by omega, p, q, by simpa using hp, hq, hc⟩
            · rw [if_neg hc] at hf; cases hf
  · rintro ⟨hm, p, q, hp, hq, hc⟩
    have hlt : m < points.length := (List.getElem?_eq_some_iff.mp hq).1
    refine ⟨m - 1, ?_, ?_⟩
    · rw [List.mem_range]; omega
    · have hm1 : m - 1 + 1 = m := by omega
      rw [hm1, hp, hq]
      simp only [if_pos hc, hm1]

/-- The claim-side removal predicate, spelled out propositionally. -/
theorem removedBySpec_iff (points : List Pt) (t : ℚ) (i : ℕ) :
    removedBySpec points t i = true ↔
    ((1 ≤ i ∧ ∃ p q, points[i - 1]? = some p ∧ points[i]? = some q ∧
        ptClose p q t) ∨
     (i = points.length - 1 ∧ ∃ p q, points.head? = some p ∧
        points.getLast? = some q ∧ ptClose p q t)) := by
  unfold removedBySpec
  cases hp : points[i - 1]? <;> cases hq : points[i]? <;>
    cases hh : points.head? <;> cases hl : points.getLast? <;>
    simp [hp, hq, hh, hl]

/-- On an input of length at least two, the source `filterSimilarPoints`
returns normally and computes exactly the claim's description. -/
theorem filterSimilarPoints_eq_spec (points : List Pt) (t : ℚ)
    (h2 : 2 ≤ points.length) :
    filterSimilarPoints points t = .ok (filterSimilarPointsSpec points t) := by
  obtain ⟨p0, rest, rfl⟩ : ∃ p0 rest, points = p0 :: rest := by
    cases points with
    | nil => simp at h2
    | cons a l => exact ⟨a, l, rfl⟩
  obtain ⟨pl, hpl⟩ : ∃ pl, (p0 :: rest).getLast? = some pl := by
    cases hl : (p0 :: rest).getLast? with
    | none => rw [List.getLast?_eq_none_iff] at hl; cases hl
    | some x => exact ⟨x, rfl⟩
  have hp0 : (p0 :: rest).head? = some p0 := rfl
  -- the full mark set agrees pointwise with the claim's removal predicate
  have hmarks : ∀ i,
      (i ∈ (if ptClose p0 pl t
            then consecutiveMarks (p0 :: rest) t ++ [(p0 :: rest).length - 1]
            else consecutiveMarks (p0 :: rest) t)) ↔
      removedBySpec (p0 :: rest) t i = true := by
    intro i
    rw [removedBySpec_iff]
    by_cases hwrap : ptClose p0 pl t
    · rw [if_pos hwrap, List.mem_append, List.mem_singleton,
         mem_consecutiveMarks]
      constructor
      · rintro (⟨h1, hP⟩ | rfl)
        · exact .inl ⟨h1, hP⟩
        · exact .inr ⟨rfl, p0, pl, hp0, hpl, hwrap⟩
      · rintro (⟨h1, hP⟩ | ⟨rfl, p, q, hp, hq, hc⟩)
        · exact .inl ⟨h1, hP⟩
        · exact .inr rfl
    · rw [if_neg hwrap, mem_consecutiveMarks]
      constructor
      · rintro ⟨h1, hP⟩
        exact .inl ⟨h1, hP⟩
      · rintro (⟨h1, hP⟩ | ⟨heq, p, q, hp, hq, hc⟩)
        · exact ⟨h1, hP⟩
        · rw [hp0] at hp
          rw [hpl] at hq
          injection hp with hp2
          injection hq with hq2
          subst hp2
          subst hq2
          exact absurd hc hwrap
  -- hence the two filtered lists coincide
  have hfilter :
      (p0 :: rest).enum.filter
        (fun ip => decide (ip.1 ∉
          (if ptClose p0 pl t
           then consecutiveMarks (p0 :: rest) t ++ [(p0 :: rest).length - 1]
           else consecutiveMarks (p0 :: rest) t))) =
      (p0 :: rest).enum.filter
        (fun ip => ! removedBySpec (p0 :: rest) t ip.1) := by
    refine List.filter_congr ?_
    intro ip _
    by_cases hmem : ip.1 ∈
        (if ptClose p0 pl t
         then consecutiveMarks (p0 :: rest) t ++ [(p0 :: rest).length - 1]
         else consecutiveMarks (p0 :: rest) t)
    · rw [(hmarks ip.1).mp hmem, Bool.not_true]
      exact decide_eq_false (not_not_intro hmem)
    · have hrb : removedBySpec (p0 :: rest) t ip.1 = false := by
        cases hb : removedBySpec (p0 :: rest) t ip.1 with
        | false => rfl
        | true => exact absurd ((hmarks ip.1).mpr hb) hmem
      rw [hrb, Bool.not_false]
      exact decide_eq_true hmem
  -- index 0 always survives, so the filtered list is non-empty
  have hrlen : 1 ≤ rest.length := by simpa using h2
  have hrb0 : removedBySpec (p0 :: rest) t 0 = false := by
    cases hb : removedBySpec (p0 :: rest) t 0 with
    | false => rfl
    | true =>
        rcases (removedBySpec_iff _ _ _).mp hb with ⟨h1, _⟩ | ⟨h1, _⟩
        · omega
        · simp only [List.length_cons, Nat.add_sub_cancel] at h1
          omega
  unfold filterSimilarPoints filterSimilarPointsSpec
  rw [hp0, hpl]
  dsimp only
  rw [hfilter]
  have henum : (p0 :: rest).enum.filter
      (fun ip => ! removedBySpec (p0 :: rest) t ip.1) =
      (0, p0) :: (List.enumFrom 1 rest).filter
        (fun ip => ! removedBySpec (p0 :: rest) t ip.1) := by
    rw [List.enum_cons, List.filter_cons]
    simp [hrb0]
  rw [henum]
  dsimp only [List.map_cons]
  obtain ⟨ql, hql⟩ : ∃ ql,
      (p0 :: ((List.enumFrom 1 rest).filter
        (fun ip => ! removedBySpec (p0 :: rest) t ip.1)).map (·.2)).getLast? =
      some ql := by
    cases hl : (p0 :: _).getLast? with
    | none => rw [List.getLast?_eq_none_iff] at hl; cases hl
    | some x => exact ⟨x, rfl⟩
  rw [List.head?_cons, hql]

/-- The source function on the empty list: `points[0].x` dereferences
`undefined` and throws. -/
theorem filterSimilarPoints_nil (t : ℚ) :
    filterSimilarPoints [] t = .error .typeError := rfl

/-- The source function on a singleton: the wraparound check compares the
point with itself, so with a positive threshold the only point is marked
and removed, after which `filteredPts[0].x` dereferences `undefined` and
throws; with a non-positive threshold nothing is within threshold and the
point survives. -/
theorem filterSimilarPoints_singleton (p : Pt) (t : ℚ) :
    filterSimilarPoints [p] t =
      (if 0 < t then .error .typeError else .ok [p]) := by
  by_cases ht : 0 < t
  · rw [if_pos ht]
    simp [filterSimilarPoints, consecutiveMarks, ptClose, ht]
  · rw [if_neg ht]
    simp [filterSimilarPoints, consecutiveMarks, ptClose, ht]

/-- Claim C6 counterexample: the claim quantifies over every non-empty
point list, but on the singleton `[(0,0)]` with threshold `0.001` the
source function throws a `TypeError` (the wraparound check marks the
point as within threshold of itself, the filter removes it, and
`filteredPts[0].x` dereferences `undefined`), while the claim's
description would return `[]`. -/
theorem claim6_counterexample :
    filterSimilarPoints [⟨0, 0⟩] (1 / 1000) = .error .typeError ∧
    filterSimilarPointsSpec [⟨0, 0⟩] (1 / 1000) = [] := by
  constructor
  · rw [filterSimilarPoints_singleton]
    norm_num
  · norm_num [filterSimilarPointsSpec, removedBySpec, ptClose]

/-- Claim C6 (amended): for every point list of length at least two,
`filterSimilarPoints` removes each point whose predecessor (and, for the
last point, the first point) is within threshold in both axes
independently, and afterwards additionally drops the new last point if it
is still within threshold of the new first point in both axes
(`filterSimilarPointsSpec` is that description verbatim); in particular
`filterSimilarPoints [(0,0), (0,0.0001), (1,1)] 0.001 = [(0,0), (1,1)]`.
The amendment restricts the claim's "every non-empty point list" to
lists of length at least two — on singletons with a positive threshold
the function throws instead (see the counterexample). -/
theorem claim6_filterSimilarPoints :
    (∀ (points : List Pt) (t : ℚ), 2 ≤ points.length →
      filterSimilarPoints points t = .ok (filterSimilarPointsSpec points t)) ∧
    filterSimilarPoints [⟨0, 0⟩, ⟨0, 1 / 10000⟩, ⟨1, 1⟩] (1 / 1000) =
      .ok [⟨0, 0⟩, ⟨1, 1⟩] := by
  constructor
  · exact filterSimilarPoints_eq_spec
  · rw [filterSimilarPoints_eq_spec _ _ (by decide)]
    have h1 : removedBySpec [⟨0, 0⟩, ⟨0, 1 / 10000⟩, ⟨1, 1⟩] (1 / 1000) 0 = false := by
      norm_num [removedBySpec, ptClose, abs_lt]
    have h2 : removedBySpec [⟨0, 0⟩, ⟨0, 1 / 10000⟩, ⟨1, 1⟩] (1 / 1000) 1 = true := by
      norm_num [removedBySpec, ptClose, abs_lt]
    have h3 : removedBySpec [⟨0, 0⟩, ⟨0, 1 / 10000⟩, ⟨1, 1⟩] (1 / 1000) 2 = false := by
      norm_num [removedBySpec, ptClose, abs_lt]
    simp only [filterSimilarPointsSpec, List.enum, List.enumFrom, List.filter,
               h1, h2, h3, Bool.not_true, Bool.not_false]
    norm_num [ptClose, abs_lt]

/-- Claim C6 witness: the amended theorem applied to a concrete
two-point list. -/
theorem claim6_witness :
    filterSimilarPoints [⟨0, 0⟩, ⟨5, 5⟩] 1 =
      .ok (filterSimilarPointsSpec [⟨0, 0⟩, ⟨5, 5⟩] 1) :=
  claim6_filterSimilarPoints.1 [⟨0, 0⟩, ⟨5, 5⟩] 1 (by decide)

/-- Claim C10 counterexample: the claim says the function returns
normally for every list of length at least one, but on the singleton
`[(0,0)]` with the source's default threshold `0.002` it throws a
`TypeError`. -/
theorem claim10_counterexample :
    filterSimilarPoints [⟨0, 0⟩] (1 / 500) = .error .typeError := by
  rw [filterSimilarPoints_singleton]
  norm_num

/-- Claim C10 (amended): `filterSimilarPoints` raises on the empty list
(dereferencing `points[0]`), as claimed; but the claim's "returns
normally for every list of length at least one" only holds from length
two up.  On a singleton it returns normally exactly when the threshold
is non-positive: with a positive threshold the wraparound check marks
the only point as within threshold of itself, every point is filtered
away, and the final first/last check dereferences an element of the
empty list. -/
theorem claim10_filterSimilarPoints_partiality :
    (∀ t : ℚ, filterSimilarPoints [] t = .error .typeError) ∧
    (∀ (points : List Pt) (t : ℚ), 2 ≤ points.length →
      ∃ res, filterSimilarPoints points t = .ok res) ∧
    (∀ (p : Pt) (t : ℚ), 0 < t →
      filterSimilarPoints [p] t = .error .typeError) ∧
    (∀ (p : Pt) (t : ℚ), t ≤ 0 → filterSimilarPoints [p] t = .ok [p]) := by
  refine ⟨fun t => rfl, ?_, ?_, ?_⟩
  · intro points t h
    exact ⟨_, filterSimilarPoints_eq_spec points t h⟩
  · intro p t ht
    rw [filterSimilarPoints_singleton, if_pos ht]
  · intro p t ht
    rw [filterSimilarPoints_singleton, if_neg (not_lt.mpr ht)]

/-- Claim C10 witness: the amended theorem applied at concrete inputs
for each of its four parts. -/
theorem claim10_witness :
    filterSimilarPoints ([] : List Pt) 1 = .error .typeError ∧
    (∃ res, filterSimilarPoints [⟨0, 0⟩, ⟨3, 3⟩] 1 = .ok res) ∧
    filterSimilarPoints [⟨2, 2⟩] 1 = .error .typeError ∧
    filterSimilarPoints [⟨2, 2⟩] 0 = .ok [⟨2, 2⟩] :=
  ⟨claim10_filterSimilarPoints_partiality.1 1,
   claim10_filterSimilarPoints_partiality.2.1 [⟨0, 0⟩, ⟨3, 3⟩] 1 (by decide),
   claim10_filterSimilarPoints_partiality.2.2.1 ⟨2, 2⟩ 1 (by decide),
   claim10_filterSimilarPoints_partiality.2.2.2 ⟨2, 2⟩ 0 le_rfl⟩

end VorWeb
